import Mathlib

/-!
Verification development for the TurnipBeams command-dispatch engine
(`src/command.ts`, `src/lib.ts`, `src/interface.ts`, `src/handler.ts`).

The TypeScript core is shallowly embedded: each class/function of the source
is translated into a Lean definition of the same name wherever possible.
JavaScript mutation of the metadata accumulator, the menu's `args` array and
the token array is rendered as explicit value threading through the
recursion; `await`ed collaborator calls are pure lookups in an `Env` record
(the spec treats them as opaque external collaborators).  Logging effects
(`console.warn`/`console.error`) is rendered as returned warning lists where
a claim observes it (tree construction), and dropped where none does.
Effects of `menu.send` performed by the engine itself are collected in the
result; a handler's own sends are behind its opaque function value.
-/

namespace TurnipBeams

/-! ## Platform data model (revolt.js values, as used by the core) -/

/-- `Channel['channel_type']` in revolt.js. -/
inductive ChannelType where
  | SavedMessages
  | DirectMessage
  | Group
  | TextChannel
  | VoiceChannel
deriving DecidableEq, Repr, BEq, Inhabited

/-- The `ID` union type of command.ts: `'channel'|'role'|'emote'|'message'|'user'|'server'`. -/
inductive IDKind where
  | channel
  | role
  | emote
  | message
  | user
  | server
deriving DecidableEq, Repr, BEq, Inhabited

structure Role where
  id : String
deriving DecidableEq, Repr, Inhabited

structure Server where
  id : String
  /-- `server.roles![id]` lookup used by the bare-ID role branch. -/
  roles : String → Option Role

instance : Inhabited Server := ⟨⟨"", fun _ => none⟩⟩

structure Channel where
  id : String
  channel_type : ChannelType
deriving DecidableEq, Repr, Inhabited

structure User where
  id : String
deriving DecidableEq, Repr, Inhabited

structure Member where
  id : String
deriving DecidableEq, Repr, Inhabited

structure Message where
  id : String
deriving DecidableEq, Repr, Inhabited

/-! ## JS semantics helpers -/

/-- JS `x === null` evaluated at a value of TypeScript type `T | undefined`
(the declared types of `CommandMenu.server` and `CommandMenu.member`):
`undefined === null` is `false` and an object is never `=== null`, so the
test is false for both alternatives of the union. -/
def jsEqNull {α : Type} (_ : Option α) : Bool := false

/-- JS falsiness `!x` of a value of a non-nullable object type
(`CommandMenu.channel : Channel`): an object is always truthy, so `!x` is
always `false`. -/
def jsFalsyObj {α : Type} (_ : α) : Bool := false

/-- JS `x || d` for an optional string option field: `undefined`, `null` and
the empty string are falsy and fall through to the default. -/
def jsOrString (x : Option String) (d : String) : String :=
  match x with
  | none => d
  | some s => if s = "" then d else s

/-! ## JS number parsing (`Number(string)`, ECMAScript StringNumericLiteral)

`Number.isNaN(Number(param))` is the core's numeric-token test.  JS numbers
are modelled as NaN, signed Infinity, or an exact rational value; IEEE-754
rounding of the decimal value is not modelled (no claim observes it: the
engine only tests NaN-ness and hands the parsed value to a handler). -/

inductive JsNum where
  | nan
  | inf (neg : Bool)
  | val (q : Rat)
deriving DecidableEq, Repr, Inhabited

def JsNum.isNaN : JsNum → Bool
  | .nan => true
  | _ => false

def JsNum.negate : JsNum → JsNum
  | .nan => .nan
  | .inf b => .inf (!b)
  | .val q => .val (-q)

/-- ECMAScript StrWhiteSpaceChar (the code points `Number()` trims). -/
def isStrWhiteSpace (ch : Char) : Bool :=
  ch.toNat = 9 || ch.toNat = 10 || ch.toNat = 11 || ch.toNat = 12 ||
  ch.toNat = 13 || ch.toNat = 32 || ch.toNat = 0xa0 || ch.toNat = 0x1680 ||
  (0x2000 ≤ ch.toNat && ch.toNat ≤ 0x200a) || ch.toNat = 0x2028 ||
  ch.toNat = 0x2029 || ch.toNat = 0x202f || ch.toNat = 0x205f ||
  ch.toNat = 0x3000 || ch.toNat = 0xfeff

def trimWS (l : List Char) : List Char :=
  ((l.dropWhile isStrWhiteSpace).reverse.dropWhile isStrWhiteSpace).reverse

def natOfDigits (l : List Char) : Nat :=
  l.foldl (fun a ch => a * 10 + (ch.toNat - 48)) 0

def hexDigitVal (ch : Char) : Option Nat :=
  if ch.isDigit then some (ch.toNat - 48)
  else if 'a' ≤ ch ∧ ch ≤ 'f' then some (ch.toNat - 87)
  else if 'A' ≤ ch ∧ ch ≤ 'F' then some (ch.toNat - 55)
  else none

def radixVal (digit : Char → Option Nat) (radix : Nat) (l : List Char) : Option Nat :=
  if l = [] then none
  else
    l.foldl (fun acc ch =>
      match acc, digit ch with
      | some a, some d => some (a * radix + d)
      | _, _ => none) (some 0)

def binDigitVal (ch : Char) : Option Nat :=
  if ch = '0' then some 0 else if ch = '1' then some 1 else none

def octDigitVal (ch : Char) : Option Nat :=
  if '0' ≤ ch ∧ ch ≤ '7' then some (ch.toNat - 48) else none

/-- `0x…`, `0o…`, `0b…` NonDecimalIntegerLiteral (no sign allowed). -/
def parseNonDec (l : List Char) : Option JsNum :=
  match l with
  | '0' :: x :: t =>
    if x = 'x' ∨ x = 'X' then (radixVal hexDigitVal 16 t).map (fun n => .val n)
    else if x = 'o' ∨ x = 'O' then (radixVal octDigitVal 8 t).map (fun n => .val n)
    else if x = 'b' ∨ x = 'B' then (radixVal binDigitVal 2 t).map (fun n => .val n)
    else none
  | _ => none

/-- The decimal value `ip . fp × 10^e`. -/
def decValue (ip fp : List Char) (e : Int) : Rat :=
  ((natOfDigits ip : Rat) + (natOfDigits fp : Rat) / (10 : Rat) ^ fp.length) * (10 : Rat) ^ e

def parseExpPart (ip fp : List Char) (t : List Char) : Option JsNum :=
  let (eneg, u) :=
    match t with
    | '+' :: u => (false, u)
    | '-' :: u => (true, u)
    | u => (false, u)
  let ed := u.takeWhile Char.isDigit
  if ed ≠ [] ∧ u.dropWhile Char.isDigit = [] then
    some (.val (decValue ip fp (if eneg then -(natOfDigits ed : Int) else (natOfDigits ed : Int))))
  else none

/-- StrUnsignedDecimalLiteral: `Infinity`, or digits with optional fraction
and exponent (at least one digit overall, whole input consumed). -/
def parseUnsignedDec (l : List Char) : Option JsNum :=
  if l = "Infinity".data then some (.inf false)
  else
    let ip := l.takeWhile Char.isDigit
    let r1 := l.dropWhile Char.isDigit
    let (fp, r2) :=
      match r1 with
      | '.' :: t => (t.takeWhile Char.isDigit, t.dropWhile Char.isDigit)
      | _ => ([], r1)
    if ip = [] ∧ fp = [] then none
    else
      match r2 with
      | [] => some (.val (decValue ip fp 0))
      | 'e' :: t => parseExpPart ip fp t
      | 'E' :: t => parseExpPart ip fp t
      | _ => none

/-- StrDecimalLiteral: optional sign then an unsigned decimal literal. -/
def parseSignedDec (l : List Char) : Option JsNum :=
  match l with
  | '+' :: t => parseUnsignedDec t
  | '-' :: t => (parseUnsignedDec t).map JsNum.negate
  | t => parseUnsignedDec t

/-- JS `Number(s)` on a string: trim, empty ↦ 0, else a non-decimal integer
literal or a signed decimal literal, else NaN. -/
def jsNumber (s : String) : JsNum :=
  let l := trimWS s.data
  if l = [] then .val 0
  else
    match parseNonDec l with
    | some v => v
    | none => (parseSignedDec l).getD .nan

/-! ## The `patterns` table of command.ts, as total matching functions

`\w` is `[A-Za-z0-9_]`.  Regex `test`/`exec` (no `g` flag) are modelled by
an `Option` of the captured groups; each pattern is anchored `^…$`. -/

def isWordChar (ch : Char) : Bool :=
  ('a' ≤ ch && ch ≤ 'z') || ('A' ≤ ch && ch ≤ 'Z') || ('0' ≤ ch && ch ≤ '9') || ch = '_'

def wordRun (l : List Char) : List Char × List Char :=
  (l.takeWhile isWordChar, l.dropWhile isWordChar)

/-- `^<#(\w{26,})>$` — the capture is the id. -/
def channelExec (s : String) : Option String :=
  match s.data with
  | '<' :: '#' :: t =>
    let (w, r) := wordRun t
    if 26 ≤ w.length ∧ r = ['>'] then some (String.mk w) else none
  | _ => none

/-- `^<@?(\w{26,})>$`. -/
def userExec (s : String) : Option String :=
  match s.data with
  | '<' :: t =>
    let t' := match t with | '@' :: u => u | u => u
    let (w, r) := wordRun t'
    if 26 ≤ w.length ∧ r = ['>'] then some (String.mk w) else none
  | _ => none

/-- `^(\w{26,})$`. -/
def idExec (s : String) : Option String :=
  let (w, r) := wordRun s.data
  if 26 ≤ w.length ∧ r = [] then some (String.mk w) else none

/-- Strip a literal from the front of a char list. -/
def dropLit (lit : List Char) (l : List Char) : Option (List Char) :=
  match lit, l with
  | [], l => some l
  | a :: lt, b :: t => if a = b then dropLit lt t else none
  | _ :: _, [] => none

/-- Group 2 of the message-link pattern: `\w{26,}` or `channel/\w{26,}/\w{7,}`
(the capture includes the `channel/` prefix). -/
def messageLinkTail (l : List Char) : Option String :=
  let (w, r) := wordRun l
  if 26 ≤ w.length ∧ r = [] then some (String.mk l)
  else
    match dropLit "channel/".data l with
    | some t =>
      let (w1, r1) := wordRun t
      match r1 with
      | '/' :: t2 =>
        let (w2, r2) := wordRun t2
        if 26 ≤ w1.length ∧ 7 ≤ w2.length ∧ r2 = [] then some (String.mk l) else none
      | _ => none
    | none => none

/-- `^https?:\/\/(?:nightly\.|app\.)?revolt\.chat\/(?:server|channel)\/(\w{26,})\/(\w{26,}|channel\/\w{26,}\/\w{7,})$`
— returns (group 1, group 2). -/
def messageLinkExec (s : String) : Option (String × String) :=
  match dropLit "http".data s.data with
  | none => none
  | some l0 =>
    let l1 := match l0 with | 's' :: t => t | t => t
    match dropLit "://".data l1 with
    | none => none
    | some l2 =>
      let l3 :=
        match dropLit "nightly.".data l2 with
        | some t => t
        | none =>
          match dropLit "app.".data l2 with
          | some t => t
          | none => l2
      match dropLit "revolt.chat/".data l3 with
      | none => none
      | some l4 =>
        let l5 :=
          match dropLit "server/".data l4 with
          | some t => some t
          | none => dropLit "channel/".data l4
        match l5 with
        | none => none
        | some l6 =>
          let (g1, r1) := wordRun l6
          if 26 ≤ g1.length then
            match r1 with
            | '/' :: t =>
              (messageLinkTail t).map (fun g2 => (String.mk g1, g2))
            | _ => none
          else none

def channelTest (s : String) : Bool := (channelExec s).isSome
def userTest (s : String) : Bool := (userExec s).isSome
def idTest (s : String) : Bool := (idExec s).isSome
def messageLinkTest (s : String) : Bool := (messageLinkExec s).isSome

/-- The numeric-token test of the `number` branch, as the source writes it
inline: `!Number.isNaN(Number(param)) && param !== 'Infinity' && param !== '-Infinity'`. -/
def numberMatches (p : String) : Bool :=
  !(jsNumber p).isNaN && !(p == "Infinity") && !(p == "-Infinity")

/-! ## Resolved argument values (`menu.args : any[]`) -/

inductive Arg where
  | channel (c : Channel)
  | message (m : Message)
  | user (u : User)
  | role (r : Role)
  | server (s : Server)
  | num (n : JsNum)
  | str (s : String)

/-- The variables `parseVars` receives from the terminal template branch. -/
structure TemplateVars where
  author : String
  pfx : String
  command : String

/-- The external collaborators and process-wide configuration the engine
consumes (revolt.js client caches, the permission table of permission.ts and
the template substitution of util.ts — both files are outside src/, so their
behaviour is kept abstract per the spec's §6 interface list — and the
`getPrefix` resolver held as replaceable module state by interface.ts). -/
structure Env where
  /-- `client.channels.fetch(id)`: a channel, or a thrown failure (`none`). -/
  channels : String → Option Channel
  /-- `client.users.fetch(id)`. -/
  users : String → Option User
  /-- `client.servers.get(id)` (synchronous). -/
  servers : String → Option Server
  /-- `channel.fetchMessage(id)`. -/
  fetchMessage : Channel → String → Option Message
  /-- interface.ts `getPrefix` (module state, default `() => '.'`). -/
  prefixOf : Option Server → String
  /-- revolt.js `User.toString()` (mention rendering). -/
  userToString : User → String
  /-- revolt.js `Channel.toString()` (mention rendering). -/
  channelToString : Channel → String
  /-- Modelled from the spec: util.ts (`parseVars`) is not in src/; spec §6
  lists `substituteTemplate(template, variables, fallback) → string`. -/
  parseVars : String → TemplateVars → String → String
  /-- Modelled from the spec: permission.ts is not in src/; spec §4.3 step 4
  rejects when the caller's resolved level is below the required level. -/
  hasPermission : User → Option Member → Int → Bool
  /-- Modelled from the spec: `resolvePermissionLevel(caller, member|absent)`. -/
  permissionLevel : User → Option Member → Int
  /-- Modelled from the spec: `permissionLevelName(integer) → string`. -/
  permissionName : Int → String

/-! ## lib.ts: ID-based fetch helpers -/

def getGuildByID (env : Env) (id : String) : Sum Server String :=
  match env.servers id with
  | some guild => .inl guild
  | none => .inr ("No guild found by the ID of `" ++ id ++ "`!")

def getChannelByID (env : Env) (id : String) : Sum Channel String :=
  match env.channels id with
  | some channel => .inl channel
  | none => .inr ("No channel found by the ID of `" ++ id ++ "`!")

def fetchMessageOf (env : Env) (channel : Channel) (id : String) : Sum Message String :=
  match env.fetchMessage channel id with
  | some m => .inl m
  | none => .inr ("`" ++ id ++ "` isn't a valid message of the channel "
      ++ env.channelToString channel ++ "!")

/-- lib.ts `getMessageByID(channel: Channel | string, id)`. -/
def getMessageByID (env : Env) (channel : Sum Channel String) (id : String) :
    Sum Message String :=
  match channel with
  | .inl ch => fetchMessageOf env ch id
  | .inr chanID =>
    match getChannelByID env chanID with
    | .inl target =>
      if target.channel_type = .TextChannel ∨ target.channel_type = .DirectMessage then
        fetchMessageOf env target id
      else .inr ("`" ++ id ++ "` isn't a valid text-based channel!")
    | .inr e => .inr e

def getUserByID (env : Env) (id : String) : Sum User String :=
  match env.users id with
  | some user => .inl user
  | none => .inr ("No user found by the ID of `" ++ id ++ "`!")

/-! ## The command tree -/

/-- The `CommandMenu` call context (the `client` field is unused by the
core's own code and omitted; `send` is rendered as the engine's collected
output, see `ExecResult`). -/
structure CommandMenu where
  args : List Arg
  message : Message
  channel : Channel
  server : Option Server
  author : Option User
  member : Option Member

/-- A handler's outcome: resolves, or rejects/throws a JS error value
(`stack` and the string rendering used by `${errorMessage}`). -/
structure JsError where
  stack : Option String
  text : String

inductive HandlerOutcome where
  | ok
  | thrown (e : JsError)

/-- `error.stack ?? error` as interpolated into the caught-failure message. -/
def JsError.rendered (e : JsError) : String := e.stack.getD e.text

/-- `BaseCommand`'s per-node metadata: `-1` means inherit permission,
`null` (`none`) means inherit nsfw/channelType. -/
structure BaseMeta where
  description : String
  usage : String
  permission : Int
  nsfw : Option Bool
  channelType : Option ChannelType

/-- `Command.run`: a template string or a handler. -/
inductive RunAction where
  | template (s : String)
  | handler (f : CommandMenu → HandlerOutcome)

/-- `RestCommand.run`: the handler also receives the `combined` string. -/
inductive RestRunAction where
  | template (s : String)
  | handler (f : CommandMenu → String → HandlerOutcome)

/-- `RestCommand`: a terminal action plus base metadata, no branches. -/
structure RestCommand where
  base : BaseMeta
  run : RestRunAction

/-- `Command` (with the `NamedCommand` subclass folded in as the `aliases`
and `name` fields; plain `Command`s simply leave them `[]`/`none`).  The
`subcommands` field is the constructed name→node map (insertion-ordered
association list; aliases are extra keys for the same node, see
`buildSubMap`).  `this.id` is not stored: the constructor assigns it from
`idType` and the matching branch field, so it is recovered by `idBranch`. -/
inductive Command where
  | mk
    (base : BaseMeta)
    (run : RunAction)
    (subcommands : List (String × Command))
    (aliases : List String)
    (name : Option String)
    (channel : Option Command)
    (role : Option Command)
    (emote : Option Command)
    (message : Option Command)
    (user : Option Command)
    (guild : Option Command)
    (idType : Option IDKind)
    (number : Option Command)
    (any : Option (Sum Command RestCommand))

namespace Command

def base : Command → BaseMeta
  | .mk b _ _ _ _ _ _ _ _ _ _ _ _ _ => b

def run : Command → RunAction
  | .mk _ r _ _ _ _ _ _ _ _ _ _ _ _ => r

def subcommands : Command → List (String × Command)
  | .mk _ _ s _ _ _ _ _ _ _ _ _ _ _ => s

def aliases : Command → List String
  | .mk _ _ _ a _ _ _ _ _ _ _ _ _ _ => a

def name : Command → Option String
  | .mk _ _ _ _ n _ _ _ _ _ _ _ _ _ => n

def channel : Command → Option Command
  | .mk _ _ _ _ _ c _ _ _ _ _ _ _ _ => c

def role : Command → Option Command
  | .mk _ _ _ _ _ _ r _ _ _ _ _ _ _ => r

def emote : Command → Option Command
  | .mk _ _ _ _ _ _ _ e _ _ _ _ _ _ => e

def message : Command → Option Command
  | .mk _ _ _ _ _ _ _ _ m _ _ _ _ _ => m

def user : Command → Option Command
  | .mk _ _ _ _ _ _ _ _ _ u _ _ _ _ => u

def guild : Command → Option Command
  | .mk _ _ _ _ _ _ _ _ _ _ g _ _ _ => g

def idType : Command → Option IDKind
  | .mk _ _ _ _ _ _ _ _ _ _ _ i _ _ => i

def number : Command → Option Command
  | .mk _ _ _ _ _ _ _ _ _ _ _ _ n _ => n

def any : Command → Option (Sum Command RestCommand)
  | .mk _ _ _ _ _ _ _ _ _ _ _ _ _ a => a

end Command

instance : Inhabited RestCommand :=
  ⟨⟨⟨"No description.", "", -1, none, none⟩, .template "No action was set on this command!"⟩⟩

instance : Inhabited Command :=
  ⟨.mk ⟨"No description.", "", -1, none, none⟩
    (.template "No action was set on this command!")
    [] [] none none none none none none none none none none⟩

/-- `this.id`: the constructor snapshots the branch selected by
`options.id`; since both fields are private and never reassigned, the stored
pointer always equals this derived view. -/
def Command.idBranch (c : Command) : Option Command :=
  match c.idType with
  | some .channel => c.channel
  | some .role => c.role
  | some .emote => c.emote
  | some .message => c.message
  | some .user => c.user
  | some .server => c.guild
  | none => none

/-- JS `Map.get` / association-list lookup (first binding wins, as keys are
unique in a JS `Map`). -/
def mapGet {α : Type} : List (String × α) → String → Option α
  | [], _ => none
  | (k', v) :: t, k => if k' = k then some v else mapGet t k

/-- JS `Map.set`: overwrite in place, else append (insertion order kept). -/
def mapSet {α : Type} : List (String × α) → String → α → List (String × α)
  | [], k, v => [(k, v)]
  | (k', v') :: t, k, v => if k' = k then (k, v) :: t else (k', v') :: mapSet t k v

/-- JS `Map.has`. -/
def mapHas {α : Type} (m : List (String × α)) (k : String) : Bool :=
  (mapGet m k).isSome

/-- `this.subcommands.get(param)`. -/
def subGet (c : Command) (k : String) : Option Command :=
  mapGet c.subcommands k

/-! ## Metadata accumulators -/

/-- `ExecuteCommandMetadata`. -/
structure ExecMeta where
  header : String
  args : List String
  permission : Int
  nsfw : Bool
  channelType : ChannelType
  symbolicArgs : List String
deriving Repr

/-- `CommandInfoMetadata`. -/
structure InfoMeta where
  permission : Int
  nsfw : Bool
  channelType : ChannelType
  args : List String
  usage : String
  originalArgs : List String
  header : String
deriving Repr

/-- The three inheritance lines repeated at the head of `execute`,
`RestCommand.execute`: a node's own overrides are written over the
accumulator field by field before any token is consumed. -/
def applyOverridesExec (b : BaseMeta) (md : ExecMeta) : ExecMeta :=
  { md with
    permission := if b.permission ≠ -1 then b.permission else md.permission
    nsfw := b.nsfw.getD md.nsfw
    channelType := b.channelType.getD md.channelType }

/-- The same inheritance lines in `resolveInfoInternal`/`resolveInfoFinale`,
which additionally keep the deepest non-empty usage string. -/
def applyOverridesInfo (b : BaseMeta) (md : InfoMeta) : InfoMeta :=
  { md with
    permission := if b.permission ≠ -1 then b.permission else md.permission
    nsfw := b.nsfw.getD md.nsfw
    channelType := b.channelType.getD md.channelType
    usage := if b.usage ≠ "" then b.usage else md.usage }

/-! ## The permission gate (`canExecute`) -/

def canExecute (env : Env) (menu : CommandMenu) (metadata : ExecMeta) : Option String :=
  -- 1. channel type
  if metadata.channelType == .TextChannel
      && (!(menu.channel.channel_type == .TextChannel)
          || jsEqNull menu.server || jsEqNull menu.member) then
    some "This command must be executed in a server."
  else if metadata.channelType == .DirectMessage
      && (!(menu.channel.channel_type == .DirectMessage)
          || !jsEqNull menu.server || !jsEqNull menu.member) then
    some "This command must be executed as a direct message."
  -- 2. NSFW (`!menu.channel` is the falsiness of a non-nullable object)
  else if metadata.nsfw && !(menu.channel.channel_type == .DirectMessage)
      && jsFalsyObj menu.channel then
    some "This command must be executed in either an NSFW channel or as a direct message."
  -- 3. permission level
  else if !(env.hasPermission (menu.author.get!) menu.member metadata.permission) then
    some ("You don't have access to this command! Your permission level is `"
      ++ env.permissionName (env.permissionLevel (menu.author.get!) menu.member)
      ++ "` (" ++ toString (env.permissionLevel (menu.author.get!) menu.member)
      ++ "), but this command requires a permission level of `"
      ++ env.permissionName metadata.permission
      ++ "` (" ++ toString metadata.permission ++ ").")
  else none

/-! ## Execution (`Command.execute`, `RestCommand.execute`) -/

/-- `execute`'s result: the returned `string | null` plus the messages the
engine itself sent through `menu.send` (console logging is not modelled). -/
structure ExecResult where
  result : Option String
  sent : List String
deriving Repr

def handlerErrorText (e : JsError) : String :=
  "There was an error while trying to execute that command!```" ++ e.rendered ++ "```"

/-- The template variables of the terminal template branch. -/
def templateVars (env : Env) (menu : CommandMenu) (metadata : ExecMeta) : TemplateVars :=
  { author := env.userToString (menu.author.get!)
    pfx := env.prefixOf menu.server
    command := metadata.header ++ " " ++ String.intercalate ", " metadata.symbolicArgs }

/-- The terminal (`param === undefined`) branch of `Command.execute`: gate,
then template substitution + send, or handler invocation with thrown
failures caught and converted. -/
def execTerminal (env : Env) (run : RunAction) (menu : CommandMenu)
    (metadata : ExecMeta) : ExecResult :=
  match canExecute env menu metadata with
  | some error => { result := some error, sent := [] }
  | none =>
    match run with
    | .template s =>
      { result := none, sent := [env.parseVars s (templateVars env menu metadata) "???"] }
    | .handler f =>
      match f menu with
      | .ok => { result := none, sent := [] }
      | .thrown e => { result := some (handlerErrorText e), sent := [] }

def anyIsCmd : Option (Sum Command RestCommand) → Bool
  | some (.inl _) => true
  | _ => false

def anyIsRest : Option (Sum Command RestCommand) → Bool
  | some (.inr _) => true
  | _ => false

def anyGetCmd : Option (Sum Command RestCommand) → Command
  | some (.inl c) => c
  | _ => default

def anyGetRest : Option (Sum Command RestCommand) → RestCommand
  | some (.inr r) => r
  | _ => default

/-- `RestCommand.execute(combined, menu, metadata)`. -/
def RestCommand.execute (env : Env) (r : RestCommand) (combined : String)
    (menu : CommandMenu) (md : ExecMeta) : ExecResult :=
  let metadata := applyOverridesExec r.base md
  match canExecute env menu metadata with
  | some error => { result := some error, sent := [] }
  | none =>
    match r.run with
    | .template s =>
      { result := none, sent := [env.parseVars s (templateVars env menu metadata) "???"] }
    | .handler f =>
      -- run({...menu, args: menu.args, combined})
      match f menu combined with
      | .ok => { result := none, sent := [] }
      | .thrown e => { result := some (handlerErrorText e), sent := [] }

/-- `Command.execute(args, menu, metadata)`: apply this node's overrides,
then either run the terminal action (no tokens) or pop the head token and
dispatch down the branch chain in source order. -/
def Command.execute (env : Env) : Command → List String → CommandMenu → ExecMeta → ExecResult
  | c, [], menu, md => execTerminal env c.run menu (applyOverridesExec c.base md)
  | c, param :: args, menu, md =>
    let metadata := applyOverridesExec c.base md
    let isMessageLink := messageLinkTest param
    if (subGet c param).isSome then
      Command.execute env ((subGet c param).get!) args menu
        { metadata with symbolicArgs := metadata.symbolicArgs ++ [param] }
    else if c.channel.isSome && channelTest param then
      let id := (channelExec param).get!
      match getChannelByID env id with
      | .inl channel =>
        Command.execute env (c.channel.get!) args
          { menu with args := menu.args ++ [.channel channel] }
          { metadata with symbolicArgs := metadata.symbolicArgs ++ ["<channel>"] }
      | .inr s => { result := some s, sent := [] }
    else if c.message.isSome && isMessageLink then
      let ids := (messageLinkExec param).getD ("", "")
      match getMessageByID env (.inr ids.1) ids.2 with
      | .inl msg =>
        Command.execute env (c.message.get!) args
          { menu with args := menu.args ++ [.message msg] }
          { metadata with symbolicArgs := metadata.symbolicArgs ++ ["<message>"] }
      | .inr s => { result := some s, sent := [] }
    else if c.user.isSome && userTest param then
      let id := (userExec param).get!
      match getUserByID env id with
      | .inl user =>
        Command.execute env (c.user.get!) args
          { menu with args := menu.args ++ [.user user] }
          { metadata with symbolicArgs := metadata.symbolicArgs ++ ["<user>"] }
      | .inr s => { result := some s, sent := [] }
    else if c.idBranch.isSome && c.idType.isSome && idTest param then
      let metadata := { metadata with symbolicArgs := metadata.symbolicArgs ++ ["<id>"] }
      let id := (idExec param).get!
      match c.idType.get! with
      | .channel =>
        match getChannelByID env id with
        | .inl channel =>
          Command.execute env (c.idBranch.get!) args
            { menu with args := menu.args ++ [.channel channel] }
            { metadata with symbolicArgs := metadata.symbolicArgs ++ ["<channel>"] }
        | .inr s => { result := some s, sent := [] }
      | .role =>
        match menu.server with
        | none => { result := some "You can't use role parameters in DM channels!", sent := [] }
        | some server =>
          match server.roles id with
          | some role =>
            Command.execute env (c.idBranch.get!) args
              { menu with args := menu.args ++ [.role role] } metadata
          | none =>
            { result := some ("`" ++ id ++ "` isn't a valid role in this server!"), sent := [] }
      | .emote => { result := some "Emotes aren't implemented in Revolt yet.", sent := [] }
      | .message =>
        match getMessageByID env (.inl menu.channel) id with
        | .inl msg =>
          Command.execute env (c.idBranch.get!) args
            { menu with args := menu.args ++ [.message msg] } metadata
        | .inr s => { result := some s, sent := [] }
      | .user =>
        match getUserByID env id with
        | .inl user =>
          Command.execute env (c.idBranch.get!) args
            { menu with args := menu.args ++ [.user user] } metadata
        | .inr s => { result := some s, sent := [] }
      | .server =>
        match getGuildByID env id with
        | .inl guild =>
          Command.execute env (c.idBranch.get!) args
            { menu with args := menu.args ++ [.server guild] } metadata
        | .inr s => { result := some s, sent := [] }
    else if c.number.isSome && numberMatches param then
      Command.execute env (c.number.get!) args
        { menu with args := menu.args ++ [.num (jsNumber param)] }
        { metadata with symbolicArgs := metadata.symbolicArgs ++ ["<number>"] }
    else if anyIsCmd c.any then
      Command.execute env (anyGetCmd c.any) args
        { menu with args := menu.args ++ [.str param] }
        { metadata with symbolicArgs := metadata.symbolicArgs ++ ["<any>"] }
    else if anyIsRest c.any then
      RestCommand.execute env (anyGetRest c.any)
        (String.intercalate " " (param :: args))
        { menu with args := menu.args ++ (param :: args).map Arg.str }
        { metadata with symbolicArgs := metadata.symbolicArgs ++ ["<...>"] }
    else
      { result := some ("No valid command sequence matching `" ++ metadata.header ++ " "
          ++ String.intercalate " " (metadata.symbolicArgs ++ ["\"" ++ param ++ "\""])
          ++ "` found.")
        sent := [] }

/-! ## Introspection (`resolveInfo`) -/

/-- `BaseCommand` references held by a `CommandInfo` map: a `Command` or a
`RestCommand` (the `<...>` entry). -/
abbrev BaseRef := Sum Command RestCommand

/-- `CommandInfo` (the `...metadata` spread also carries `usage` and
`originalArgs` into the returned object, so they are kept as fields). -/
structure CommandInfo where
  command : BaseRef
  keyedSubcommandInfo : List (String × BaseRef)
  subcommandInfo : List (String × BaseRef)
  permission : Int
  nsfw : Bool
  channelType : ChannelType
  args : List String
  usage : String
  originalArgs : List String
  header : String

def IDKind.render : IDKind → String
  | .channel => "channel"
  | .role => "role"
  | .emote => "emote"
  | .message => "message"
  | .user => "user"
  | .server => "server"

def optEntry (k : String) : Option Command → List (String × BaseRef)
  | some c => [(k, .inl c)]
  | none => []

/-- The terminal case's generic-branch map, in source insertion order.
(`<id = <kind>>` interpolates `this.idType`; when `this.id` is present the
constructor guarantees `idType` is too.) -/
def genericSubInfo (c : Command) : List (String × BaseRef) :=
  optEntry "<channel>" c.channel
  ++ optEntry "<role>" c.role
  ++ optEntry "<emote>" c.emote
  ++ optEntry "<message>" c.message
  ++ optEntry "<user>" c.user
  ++ optEntry ("<id = <" ++ ((c.idType.map IDKind.render).getD "null") ++ ">>") c.idBranch
  ++ optEntry "<number>" c.number
  ++ (match c.any with
      | some (.inl cmd) => [("<any>", .inl cmd)]
      | some (.inr r) => [("<...>", .inr r)]
      | none => [])

/-- The terminal case's alias-deduplicated named-subcommand map: keep only
the entries whose key is the sub-node's canonical name.  (The JS `name`
getter throws when the name was never set; tree assembly always sets it, and
an unset name simply never equals the tag here.) -/
def keyedSubInfo (c : Command) : List (String × BaseRef) :=
  (c.subcommands.filter (fun p => p.2.name == some p.1)).map (fun p => (p.1, .inl p.2))

def invalidSubcommandMessage (md : InfoMeta) : String :=
  "No subcommand found by the argument list: `" ++ String.intercalate " " md.originalArgs ++ "`"

/-- `RestCommand.resolveInfoFinale`. -/
def RestCommand.resolveInfoFinale (r : RestCommand) (md : InfoMeta) : CommandInfo :=
  let metadata := applyOverridesInfo r.base md
  { command := .inr r
    keyedSubcommandInfo := []
    subcommandInfo := []
    permission := metadata.permission
    nsfw := metadata.nsfw
    channelType := metadata.channelType
    args := metadata.args
    usage := metadata.usage
    originalArgs := metadata.originalArgs
    header := metadata.header }

/-- `Command.resolveInfoInternal`: the introspection walk, structurally
mirroring `execute` but consuming placeholder markers. -/
def Command.resolveInfoInternal (c : Command) : List String → InfoMeta →
    Except String CommandInfo
  | [], md =>
    let metadata := applyOverridesInfo c.base md
    .ok
      { command := .inl c
        keyedSubcommandInfo := keyedSubInfo c
        subcommandInfo := genericSubInfo c
        permission := metadata.permission
        nsfw := metadata.nsfw
        channelType := metadata.channelType
        args := metadata.args
        usage := metadata.usage
        originalArgs := metadata.originalArgs
        header := metadata.header }
  | param :: args, md =>
    let metadata := applyOverridesInfo c.base md
    if param = "<channel>" then
      match c.channel with
      | some ch => ch.resolveInfoInternal args
          { metadata with args := metadata.args ++ ["<channel>"] }
      | none => .error (invalidSubcommandMessage metadata)
    else if param = "<role>" then
      match c.role with
      | some r => r.resolveInfoInternal args
          { metadata with args := metadata.args ++ ["<role>"] }
      | none => .error (invalidSubcommandMessage metadata)
    else if param = "<emote>" then
      match c.emote with
      | some e => e.resolveInfoInternal args
          { metadata with args := metadata.args ++ ["<emote>"] }
      | none => .error (invalidSubcommandMessage metadata)
    else if param = "<message>" then
      match c.message with
      | some m => m.resolveInfoInternal args
          { metadata with args := metadata.args ++ ["<message>"] }
      | none => .error (invalidSubcommandMessage metadata)
    else if param = "<user>" then
      match c.user with
      | some u => u.resolveInfoInternal args
          { metadata with args := metadata.args ++ ["<user>"] }
      | none => .error (invalidSubcommandMessage metadata)
    else if param = "<id>" then
      match c.idBranch with
      | some i => i.resolveInfoInternal args
          { metadata with args := metadata.args
              ++ ["<id = <" ++ ((c.idType.map IDKind.render).getD "null") ++ ">>"] }
      | none => .error (invalidSubcommandMessage metadata)
    else if param = "<number>" then
      match c.number with
      | some n => n.resolveInfoInternal args
          { metadata with args := metadata.args ++ ["<number>"] }
      | none => .error (invalidSubcommandMessage metadata)
    else if param = "<any>" then
      match c.any with
      | some (.inl cmd) => cmd.resolveInfoInternal args
          { metadata with args := metadata.args ++ ["<any>"] }
      | _ => .error (invalidSubcommandMessage metadata)
    else if param = "<...>" then
      match c.any with
      | some (.inr r) => .ok (r.resolveInfoFinale
          { metadata with args := metadata.args ++ ["<...>"] })
      | _ => .error (invalidSubcommandMessage metadata)
    else
      match subGet c param with
      | some sub => sub.resolveInfoInternal args
          { metadata with args := metadata.args ++ [param] }
      | none => .error (invalidSubcommandMessage metadata)

/-- `Command.resolveInfo(args, header)`. -/
def Command.resolveInfo (c : Command) (args : List String) (header : String) :
    Except String CommandInfo :=
  c.resolveInfoInternal args
    { permission := 0
      nsfw := false
      channelType := .TextChannel
      header := header
      args := []
      usage := ""
      originalArgs := args }

/-! ## The constructor (`Command.constructor`): subcommand map assembly

The two constructor loops are modelled over an index map: a map key (name or
alias) is bound to the *index* of the declared subcommand entry, which is
the pure rendering of the JS map holding references to the same object — an
alias and a canonical name bound to the same index dereference the identical
node.  The value-level `subcommands` field stored in the node is derived
from this index map at the end (`derivedSubcommands`). -/

def aliasBaseWarning (a subName : String) : String :=
  "\"" ++ a ++ "\" in subcommand \"" ++ subName
    ++ "\" was attempted to be declared as an alias but it already exists in the base commands! (Look at the next \"Loading Command\" line to see which command is affected.)"

def aliasDupWarning (a subName : String) : String :=
  "Duplicate alias \"" ++ a ++ "\" at subcommand \"" ++ subName
    ++ "\"! (Look at the next \"Loading Command\" line to see which command is affected.)"

/-- First loop: `for (const name in options.subcommands) this.subcommands.set(name, …)`,
binding each declared name to its declaration index. -/
def loop1From (i : Nat) : List (String × Command) → List (String × Nat) → List (String × Nat)
  | [], m => m
  | (n, _) :: t, m => loop1From (i + 1) t (mapSet m n i)

/-- Inner loop of the second pass: each alias of subcommand `i` (named
`subName`) is bound to index `i` unless it collides with a base name or an
existing alias binding, in which case a `console.warn` message is recorded
and the map is left unchanged. -/
def addAliases (base : List String) (i : Nat) (subName : String) :
    List String → List (String × Nat) × List String → List (String × Nat) × List String
  | [], acc => acc
  | a :: t, (m, w) =>
    if base.contains a then addAliases base i subName t (m, w ++ [aliasBaseWarning a subName])
    else if mapHas m a then addAliases base i subName t (m, w ++ [aliasDupWarning a subName])
    else addAliases base i subName t (mapSet m a i, w)

/-- Second loop: walk the declared subcommands again, adding alias
bindings (the `subcmd.name = name` assignment of this loop is accounted for
in `derivedSubcommands`/`setSubNames`). -/
def loop2From (base : List String) (i : Nat) :
    List (String × Command) → List (String × Nat) × List String → List (String × Nat) × List String
  | [], acc => acc
  | (n, s) :: t, acc => loop2From base (i + 1) t (addAliases base i n s.aliases acc)

/-- Both constructor loops: the final key→index map and the warnings, in
emission order. -/
def buildSubMap (decl : List (String × Command)) : List (String × Nat) × List String :=
  let base := decl.map Prod.fst
  loop2From base 0 decl (loop1From 0 decl [], [])

/-- Loop 2's `subcmd.name = name`: the `NamedCommand` name setter throws if
the name was already set (e.g. by `nameOverride`), so assembly fails then. -/
def setSubNames : List (String × Command) → Option (List (String × Command))
  | [] => some []
  | (n, c) :: t =>
    match c.name with
    | some _ => none
    | none =>
      (setSubNames t).map (fun rest =>
        (n, match c with
            | .mk b r s al _ ch ro em me us gu it nu an =>
              .mk b r s al (some n) ch ro em me us gu it nu an) :: rest)

/-- The value-level subcommand map stored in the node: every key of the
index map bound to its (now named) declared node.  (Every index produced by
`buildSubMap` is a declaration index, so the `getD` fallback never fires.) -/
def derivedSubcommands (decl : List (String × Command)) : Option (List (String × Command)) :=
  (setSubNames decl).map (fun named =>
    (buildSubMap decl).1.map (fun kv =>
      (kv.1, ((named.get? kv.2).getD (default : String × Command)).2)))

/-- `CommandOptions` (with `NamedCommandOptions`' extra fields folded in). -/
structure CommandOptions where
  description : Option String := none
  usage : Option String := none
  permission : Option Int := none
  nsfw : Option Bool := none
  channelType : Option ChannelType := none
  run : Option RunAction := none
  subcommands : List (String × Command) := []
  channel : Option Command := none
  role : Option Command := none
  emote : Option Command := none
  message : Option Command := none
  user : Option Command := none
  guild : Option Command := none
  id : Option IDKind := none
  number : Option Command := none
  any : Option (Sum Command RestCommand) := none
  aliases : List String := []
  nameOverride : Option String := none

/-- `options?.run || 'No action was set on this command!'` (an empty
template string is falsy and falls through to the default). -/
def jsOrRun (x : Option RunAction) : RunAction :=
  match x with
  | none => .template "No action was set on this command!"
  | some (.template s) => if s = "" then .template "No action was set on this command!" else .template s
  | some r => r

/-- The `Command`/`NamedCommand` constructor (`none` when the name setter
throws during subcommand assembly).  The warnings it logs are
`(buildSubMap options.subcommands).2`. -/
def mkCommand (options : CommandOptions) : Option Command :=
  (derivedSubcommands options.subcommands).map (fun subs =>
    .mk
      { description := jsOrString options.description "No description."
        usage := options.usage.getD ""
        permission := options.permission.getD (-1)
        nsfw := options.nsfw
        channelType := options.channelType }
      (jsOrRun options.run)
      subs
      options.aliases
      options.nameOverride
      options.channel
      options.role
      options.emote
      options.message
      options.user
      options.guild
      options.id
      options.number
      options.any)

/-! ## Statement-side definitions for the claims -/

/-- The branch kinds of the dispatch priority list (spec §4.1 step 3,
items (a)–(h), plus the no-match fallthrough (i)). -/
inductive BranchSel where
  | subcommand
  | channelMention
  | messageLink
  | userMention
  | bareID
  | numberTok
  | anyCommand
  | anyRest
  | noMatch
deriving DecidableEq, Repr

/-- The spec's priority order: the first branch, in the order
(a) named sub-command, (b) channel mention, (c) message link,
(d) user mention, (e) bare ID, (f) number, (g) `any` Command node,
(h) `any` Rest Leaf, that accepts the popped head token (a typed branch is
only attempted when the node declares it). -/
def selectBranch (c : Command) (p : String) : BranchSel :=
  if (subGet c p).isSome then .subcommand
  else if c.channel.isSome && channelTest p then .channelMention
  else if c.message.isSome && messageLinkTest p then .messageLink
  else if c.user.isSome && userTest p then .userMention
  else if c.idBranch.isSome && c.idType.isSome && idTest p then .bareID
  else if c.number.isSome && numberMatches p then .numberTok
  else if anyIsCmd c.any then .anyCommand
  else if anyIsRest c.any then .anyRest
  else .noMatch

/-- What the spec says each selected branch does with the popped token
`p` and the remaining tokens: append the branch's symbolic placeholder,
resolve the token (aborting with the collaborator's message on a failed
lookup), and recurse into the branch's node — or, for the Rest Leaf,
reinstate the token and stop descending. -/
def stepAction (env : Env) (c : Command) (p : String) (args : List String)
    (menu : CommandMenu) (md : ExecMeta) : BranchSel → ExecResult
  | .subcommand =>
    let metadata := applyOverridesExec c.base md
    Command.execute env ((subGet c p).get!) args menu
      { metadata with symbolicArgs := metadata.symbolicArgs ++ [p] }
  | .channelMention =>
    let metadata := applyOverridesExec c.base md
    match getChannelByID env ((channelExec p).get!) with
    | .inl channel =>
      Command.execute env (c.channel.get!) args
        { menu with args := menu.args ++ [.channel channel] }
        { metadata with symbolicArgs := metadata.symbolicArgs ++ ["<channel>"] }
    | .inr s => { result := some s, sent := [] }
  | .messageLink =>
    let metadata := applyOverridesExec c.base md
    let ids := (messageLinkExec p).getD ("", "")
    match getMessageByID env (.inr ids.1) ids.2 with
    | .inl msg =>
      Command.execute env (c.message.get!) args
        { menu with args := menu.args ++ [.message msg] }
        { metadata with symbolicArgs := metadata.symbolicArgs ++ ["<message>"] }
    | .inr s => { result := some s, sent := [] }
  | .userMention =>
    let metadata := applyOverridesExec c.base md
    match getUserByID env ((userExec p).get!) with
    | .inl user =>
      Command.execute env (c.user.get!) args
        { menu with args := menu.args ++ [.user user] }
        { metadata with symbolicArgs := metadata.symbolicArgs ++ ["<user>"] }
    | .inr s => { result := some s, sent := [] }
  | .bareID =>
    let metadata := applyOverridesExec c.base md
    let metadata := { metadata with symbolicArgs := metadata.symbolicArgs ++ ["<id>"] }
    let id := (idExec p).get!
    match c.idType.get! with
    | .channel =>
      match getChannelByID env id with
      | .inl channel =>
        Command.execute env (c.idBranch.get!) args
          { menu with args := menu.args ++ [.channel channel] }
          { metadata with symbolicArgs := metadata.symbolicArgs ++ ["<channel>"] }
      | .inr s => { result := some s, sent := [] }
    | .role =>
      match menu.server with
      | none => { result := some "You can't use role parameters in DM channels!", sent := [] }
      | some server =>
        match server.roles id with
        | some role =>
          Command.execute env (c.idBranch.get!) args
            { menu with args := menu.args ++ [.role role] } metadata
        | none =>
          { result := some ("`" ++ id ++ "` isn't a valid role in this server!"), sent := [] }
    | .emote => { result := some "Emotes aren't implemented in Revolt yet.", sent := [] }
    | .message =>
      match getMessageByID env (.inl menu.channel) id with
      | .inl msg =>
        Command.execute env (c.idBranch.get!) args
          { menu with args := menu.args ++ [.message msg] } metadata
      | .inr s => { result := some s, sent := [] }
    | .user =>
      match getUserByID env id with
      | .inl user =>
        Command.execute env (c.idBranch.get!) args
          { menu with args := menu.args ++ [.user user] } metadata
      | .inr s => { result := some s, sent := [] }
    | .server =>
      match getGuildByID env id with
      | .inl guild =>
        Command.execute env (c.idBranch.get!) args
          { menu with args := menu.args ++ [.server guild] } metadata
      | .inr s => { result := some s, sent := [] }
  | .numberTok =>
    let metadata := applyOverridesExec c.base md
    Command.execute env (c.number.get!) args
      { menu with args := menu.args ++ [.num (jsNumber p)] }
      { metadata with symbolicArgs := metadata.symbolicArgs ++ ["<number>"] }
  | .anyCommand =>
    let metadata := applyOverridesExec c.base md
    Command.execute env (anyGetCmd c.any) args
      { menu with args := menu.args ++ [.str p] }
      { metadata with symbolicArgs := metadata.symbolicArgs ++ ["<any>"] }
  | .anyRest =>
    let metadata := applyOverridesExec c.base md
    RestCommand.execute env (anyGetRest c.any)
      (String.intercalate " " (p :: args))
      { menu with args := menu.args ++ (p :: args).map Arg.str }
      { metadata with symbolicArgs := metadata.symbolicArgs ++ ["<...>"] }
  | .noMatch =>
    let metadata := applyOverridesExec c.base md
    { result := some ("No valid command sequence matching `" ++ metadata.header ++ " "
        ++ String.intercalate " " (metadata.symbolicArgs ++ ["\"" ++ p ++ "\""])
        ++ "` found.")
      sent := [] }

/-- The permission gate with its NSFW branch deleted (the behaviour the
unreachability claim asserts `canExecute` is extensionally equal to). -/
def canExecuteNoNsfw (env : Env) (menu : CommandMenu) (metadata : ExecMeta) : Option String :=
  if metadata.channelType == .TextChannel
      && (!(menu.channel.channel_type == .TextChannel)
          || jsEqNull menu.server || jsEqNull menu.member) then
    some "This command must be executed in a server."
  else if metadata.channelType == .DirectMessage
      && (!(menu.channel.channel_type == .DirectMessage)
          || !jsEqNull menu.server || !jsEqNull menu.member) then
    some "This command must be executed as a direct message."
  else if !(env.hasPermission (menu.author.get!) menu.member metadata.permission) then
    some ("You don't have access to this command! Your permission level is `"
      ++ env.permissionName (env.permissionLevel (menu.author.get!) menu.member)
      ++ "` (" ++ toString (env.permissionLevel (menu.author.get!) menu.member)
      ++ "), but this command requires a permission level of `"
      ++ env.permissionName metadata.permission
      ++ "` (" ++ toString metadata.permission ++ ").")
  else none

/-- The declaration index of the first subcommand (counting from `i`) that
lists `k` among its aliases. -/
def findAlias (i : Nat) (k : String) : List (String × Command) → Option Nat
  | [] => none
  | (_, s) :: t => if s.aliases.contains k then some i else findAlias (i + 1) k t

/-- The literal placeholder markers `resolveInfoInternal` intercepts before
consulting the named-subcommand map. -/
def placeholderMarkers : List String :=
  ["<channel>", "<role>", "<emote>", "<message>", "<user>", "<id>", "<number>", "<any>", "<...>"]

/-! ## Concrete fixtures used by witness theorems -/

def bmDefault : BaseMeta := ⟨"No description.", "", -1, none, none⟩

/-- A leaf node with a template action and no branches. -/
def leafTemplate : Command :=
  .mk bmDefault (.template "pong") [] [] none none none none none none none none none none

def mkAliasLeaf (al : List String) : Command :=
  .mk bmDefault (.template "pong") [] al none none none none none none none none none none

def envW : Env :=
  { channels := fun _ => none
    users := fun _ => none
    servers := fun _ => none
    fetchMessage := fun _ _ => none
    prefixOf := fun _ => "."
    userToString := fun u => "@" ++ u.id
    channelToString := fun ch => "#" ++ ch.id
    parseVars := fun t _ _ => t
    hasPermission := fun _ _ _ => true
    permissionLevel := fun _ _ => 0
    permissionName := fun _ => "User" }

def menuW : CommandMenu :=
  { args := []
    message := ⟨"m"⟩
    channel := ⟨"chan", .TextChannel⟩
    server := none
    author := some ⟨"caller"⟩
    member := none }

def mdW : ExecMeta := ⟨"cmd", [], 0, false, .TextChannel, []⟩

/-- A valid 26-character ID and the channel-mention token wrapping it. -/
def idTok : String := "AAAAAAAAAAAAAAAAAAAAAAAAAA"

def chanTok : String := "<#" ++ idTok ++ ">"

/-- A node whose sub-command map binds the channel-mention-shaped token
itself, next to a `channel` branch: the tie-break fixture. -/
def cTieW : Command :=
  .mk bmDefault (.template "root") [(chanTok, leafTemplate)] [] none
    (some leafTemplate) none none none none none none none none

/-- A child overriding `permission` under a parent that does not. -/
def childW : Command :=
  .mk ⟨"No description.", "", 5, none, none⟩ (.template "kid") [] [] none
    none none none none none none none none none

def parentW : Command :=
  .mk bmDefault (.template "root") [("kid", childW)] [] none
    none none none none none none none none none

/-- A rest leaf and a node whose `any` slot holds it. -/
def restW : RestCommand := ⟨bmDefault, .template "rest"⟩

def cRestW : Command :=
  .mk bmDefault (.template "root") [] [] none
    none none none none none none none none (some (.inr restW))

/-- A node with only a `channel` branch (lookups fail under `envW`). -/
def cChanW : Command :=
  .mk bmDefault (.template "root") [] [] none
    (some leafTemplate) none none none none none none none none

/-- A throwing handler leaf and its rest counterpart. -/
def errW : JsError := ⟨none, "boom"⟩

def cThrowW : Command :=
  .mk bmDefault (.handler fun _ => .thrown errW) [] [] none
    none none none none none none none none none

def restThrowW : RestCommand := ⟨bmDefault, .handler fun _ _ => .thrown errW⟩

/-- A node with only a `number` branch. -/
def cNumW : Command :=
  .mk bmDefault (.template "root") [] [] none
    none none none none none none none (some leafTemplate) none

/-- Alias fixture: `beta` collides with a base name, the second `a` with an
earlier alias. -/
def declW : List (String × Command) :=
  [("alpha", mkAliasLeaf ["a", "beta"]), ("beta", mkAliasLeaf ["a"])]

def dfltInfo : CommandInfo :=
  { command := .inl default
    keyedSubcommandInfo := []
    subcommandInfo := []
    permission := 0
    nsfw := false
    channelType := .TextChannel
    args := []
    usage := ""
    originalArgs := []
    header := "" }

def infoOr (r : Except String CommandInfo) : CommandInfo :=
  match r with
  | .ok i => i
  | .error _ => dfltInfo

/-- The info value `resolveInfo` returns for the parent/child fixture. -/
def infoKidW : CommandInfo := infoOr (Command.resolveInfo parentW ["kid"] "h")

/-- A genuine direct-message invocation context: DM channel, no server, no
member. -/
def dmMenuW : CommandMenu :=
  { args := []
    message := ⟨"m"⟩
    channel := ⟨"dmchan", .DirectMessage⟩
    server := none
    author := some ⟨"caller"⟩
    member := none }

/-- Accumulated metadata whose resolved channel type is `DirectMessage`. -/
def dmMdW : ExecMeta := ⟨"cmd", [], 0, false, .DirectMessage, []⟩

/-- The command the constructor assembles from the alias fixture. -/
def cW9 : Command := (mkCommand { subcommands := declW }).getD default

/-! # Theorems -/

/-- One dispatch step of `execute` on a non-empty token list: the engine
performs the action of the first branch, in the spec's priority order, that
accepts the popped head token. -/
theorem execute_cons_eq (env : Env) (c : Command) (p : String) (rest : List String)
    (menu : CommandMenu) (md : ExecMeta) :
    Command.execute env c (p :: rest) menu md
      = stepAction env c p rest menu md (selectBranch c p) := by
  by_cases h1 : (subGet c p).isSome
  · simp [Command.execute, selectBranch, stepAction, h1]
  · by_cases h2 : (c.channel.isSome && channelTest p) = true
    · simp [Command.execute, selectBranch, stepAction, h1, h2]
    · by_cases h3 : (c.message.isSome && messageLinkTest p) = true
      · simp [Command.execute, selectBranch, stepAction, h1, h2, h3]
      · by_cases h4 : (c.user.isSome && userTest p) = true
        · simp [Command.execute, selectBranch, stepAction, h1, h2, h3, h4]
        · by_cases h5 : (c.idBranch.isSome && c.idType.isSome && idTest p) = true
          · simp [Command.execute, selectBranch, stepAction, h1, h2, h3, h4, h5]
          · by_cases h6 : (c.number.isSome && numberMatches p) = true
            · simp [Command.execute, selectBranch, stepAction, h1, h2, h3, h4, h5, h6]
            · by_cases h7 : anyIsCmd c.any = true
              · simp [Command.execute, selectBranch, stepAction, h1, h2, h3, h4, h5, h6, h7]
              · by_cases h8 : anyIsRest c.any = true
                · simp [Command.execute, selectBranch, stepAction, h1, h2, h3, h4, h5, h6, h7, h8]
                · simp [Command.execute, selectBranch, stepAction, h1, h2, h3, h4, h5, h6, h7, h8]

/-- Claim C1: on a non-empty token list `execute` pops the head token and
dispatches on the first match in the priority order (a) named sub-command,
(b) channel mention, (c) message link, (d) user mention, (e) bare ID by the
node's declared id kind, (f) number, (g) `any` Command node, (h) `any` Rest
Leaf — later branches are not tried; in particular a token that names a
sub-command and also matches the channel-mention pattern resolves as the
named sub-command. -/
theorem c1_priority_order (env : Env) (c : Command) (p : String) (rest : List String)
    (menu : CommandMenu) (md : ExecMeta) :
    Command.execute env c (p :: rest) menu md
      = stepAction env c p rest menu md (selectBranch c p)
    ∧ ((subGet c p).isSome → channelTest p = true → selectBranch c p = .subcommand) := by
  refine ⟨execute_cons_eq env c p rest menu md, fun hs _ => ?_⟩
  simp [selectBranch, hs]

/-- Witness for C1 at the tie-break fixture: the token is simultaneously a
named sub-command and a channel mention, and `execute` resolves it as the
named sub-command. -/
theorem c1_witness :
    Command.execute envW cTieW [chanTok] menuW mdW
      = stepAction envW cTieW chanTok [] menuW mdW BranchSel.subcommand
    ∧ channelTest chanTok = true ∧ (subGet cTieW chanTok).isSome = true := by
  have h := c1_priority_order envW cTieW chanTok [] menuW mdW
  have hsub : (subGet cTieW chanTok).isSome = true := by rfl
  have hch : channelTest chanTok = true := by rfl
  exact ⟨by rw [h.1, h.2 hsub hch], hch, hsub⟩

/-- Claim C3: the NSFW rejection branch of `canExecute` is unreachable (its
guard conjoins the truthiness and the falsiness of the always-present
invocation channel), so the gate is extensionally the same function with
that branch deleted — it never returns the NSFW context-mismatch message. -/
theorem c3_nsfw_branch_unreachable (env : Env) (menu : CommandMenu) (md : ExecMeta) :
    canExecute env menu md = canExecuteNoNsfw env menu md := by
  simp [canExecute, canExecuteNoNsfw, jsFalsyObj]

/-- Claim C4 (code bug): at a genuine direct-message invocation — DM
channel, no server, no member — with resolved channel type
`DirectMessage`, the gate still rejects with the channel-type message,
because `menu.server !== null`/`menu.member !== null` are vacuously true
for values of the declared type `Server | undefined`/`Member | undefined`. -/
theorem c4_dm_gate_rejects_genuine_dm :
    dmMenuW.server = none ∧ dmMenuW.member = none
    ∧ dmMenuW.channel.channel_type = .DirectMessage
    ∧ dmMdW.channelType = .DirectMessage
    ∧ canExecute envW dmMenuW dmMdW = some "This command must be executed as a direct message." :=
  ⟨rfl, rfl, rfl, rfl, rfl⟩

/-- Claim C10: `resolveInfo` is a pure function of the tree, the token list
and the header (it performs no external lookups, and the source's
destructive consumption of the caller's token array is internalised by
value passing), so two calls with the same token list and header return
structurally equal results: same resolved node, same inherited metadata,
same sub-command and branch maps, same typed-argument trail. -/
theorem c10_resolveInfo_idempotent (c : Command) (args : List String) (header : String)
    (i₁ i₂ : CommandInfo)
    (h₁ : c.resolveInfo args header = .ok i₁)
    (h₂ : c.resolveInfo args header = .ok i₂) :
    i₁.command = i₂.command
    ∧ i₁.keyedSubcommandInfo = i₂.keyedSubcommandInfo
    ∧ i₁.subcommandInfo = i₂.subcommandInfo
    ∧ i₁.permission = i₂.permission ∧ i₁.nsfw = i₂.nsfw
    ∧ i₁.channelType = i₂.channelType ∧ i₁.args = i₂.args
    ∧ i₁.usage = i₂.usage ∧ i₁.header = i₂.header ∧ i₁ = i₂ := by
  cases Except.ok.inj (h₁.symm.trans h₂)
  exact ⟨rfl, rfl, rfl, rfl, rfl, rfl, rfl, rfl, rfl, rfl⟩

/-- Witness for C10 at a concrete tree and token list. -/
theorem c10_witness :
    infoKidW.command = infoKidW.command ∧
    infoKidW.keyedSubcommandInfo = infoKidW.keyedSubcommandInfo ∧
    infoKidW.subcommandInfo = infoKidW.subcommandInfo ∧
    infoKidW.permission = infoKidW.permission ∧ infoKidW.nsfw = infoKidW.nsfw ∧
    infoKidW.channelType = infoKidW.channelType ∧ infoKidW.args = infoKidW.args ∧
    infoKidW.usage = infoKidW.usage ∧ infoKidW.header = infoKidW.header ∧
    infoKidW = infoKidW :=
  c10_resolveInfo_idempotent parentW ["kid"] "h" infoKidW infoKidW rfl rfl

/-- Claim C2: both walks write a node's own metadata overrides
(permission/nsfw/channelType) onto the accumulator, field by field, before
consuming any token — a zero-argument resolution reflects the node's own
rules, `execute`'s terminal gate sees the overridden accumulator, a child
that overrides `permission` under a parent that does not resolves to the
child's value, and a field no node on the path overrides resolves to the
root default (permission 0, nsfw false, channelType Text). -/
theorem c2_metadata_inheritance :
    (∀ (c : Command) (md : InfoMeta) (i : CommandInfo),
        Command.resolveInfoInternal c [] md = .ok i →
        i.permission = (if c.base.permission ≠ -1 then c.base.permission else md.permission)
        ∧ i.nsfw = c.base.nsfw.getD md.nsfw
        ∧ i.channelType = c.base.channelType.getD md.channelType)
    ∧ (∀ (env : Env) (c : Command) (menu : CommandMenu) (md : ExecMeta) (m : String),
        canExecute env menu (applyOverridesExec c.base md) = some m →
        Command.execute env c [] menu md = ⟨some m, []⟩)
    ∧ (∀ (c child : Command) (n header : String) (i : CommandInfo),
        subGet c n = some child → n ∉ placeholderMarkers →
        c.base.permission = -1 →
        Command.resolveInfo c [n] header = .ok i →
        (child.base.permission ≠ -1 → i.permission = child.base.permission)
        ∧ (child.base.permission = -1 → i.permission = 0)
        ∧ (c.base.nsfw = none → child.base.nsfw = none → i.nsfw = false)
        ∧ (c.base.channelType = none → child.base.channelType = none →
            i.channelType = .TextChannel)) := by
  refine ⟨?_, ?_, ?_⟩
  · intro c md i h
    simp only [Command.resolveInfoInternal] at h
    cases Except.ok.inj h
    simp [applyOverridesInfo]
  · intro env c menu md m h
    simp [Command.execute, execTerminal, h]
  · intro c child n header i hsub hmem hcp h
    simp only [placeholderMarkers, List.mem_cons, List.mem_singleton, not_or] at hmem
    obtain ⟨m1, m2, m3, m4, m5, m6, m7, m8, m9⟩ := hmem
    simp only [Command.resolveInfo, Command.resolveInfoInternal, m1, m2, m3, m4, m5, m6,
      m7, m8, m9, if_false, hsub] at h
    cases Except.ok.inj h
    refine ⟨?_, ?_, ?_, ?_⟩
    · intro hne
      simp [applyOverridesInfo, hne]
    · intro heq
      simp [applyOverridesInfo, heq, hcp]
    · intro h1 h2
      simp [applyOverridesInfo, h1, h2]
    · intro h1 h2
      simp [applyOverridesInfo, h1, h2]

/-- Witness for C2: the parent does not override `permission`, the child
overrides it with 5; resolving `["kid"]` yields permission 5, and the
unoverridden fields resolve to the root defaults. -/
theorem c2_witness :
    infoKidW.permission = 5 ∧ infoKidW.nsfw = false
    ∧ infoKidW.channelType = .TextChannel := by
  have h := c2_metadata_inheritance.2.2 parentW childW "kid" "h" infoKidW
    (by rfl) (by decide) (by rfl) (by rfl)
  exact ⟨h.1 (by decide), h.2.2.1 rfl rfl, h.2.2.2 rfl rfl⟩

/-- Claim C5: when the `any` branch is a Rest Leaf and the head token
matches no higher-priority branch, `execute` reinstates the popped token,
joins all remaining tokens with single spaces, passes the joined string and
the full token list (appended to the call context's argument trail) to the
Rest Leaf, and stops descending; for tokens a, b, c the combined string is
"a b c". -/
theorem c5_rest_leaf (env : Env) (c : Command) (p : String) (rest : List String)
    (menu : CommandMenu) (md : ExecMeta) (r : RestCommand)
    (hsel : selectBranch c p = .anyRest) (hr : c.any = some (.inr r)) :
    Command.execute env c (p :: rest) menu md
      = RestCommand.execute env r (String.intercalate " " (p :: rest))
          { menu with args := menu.args ++ (p :: rest).map Arg.str }
          { applyOverridesExec c.base md with
              symbolicArgs := (applyOverridesExec c.base md).symbolicArgs ++ ["<...>"] }
    ∧ String.intercalate " " ["a", "b", "c"] = "a b c" := by
  refine ⟨?_, rfl⟩
  rw [execute_cons_eq, hsel]
  simp [stepAction, hr, anyGetRest]

/-- Witness for C5 at tokens `["a", "b", "c"]`. -/
theorem c5_witness :
    Command.execute envW cRestW ["a", "b", "c"] menuW mdW
      = RestCommand.execute envW restW "a b c"
          { menuW with args := menuW.args ++ [Arg.str "a", Arg.str "b", Arg.str "c"] }
          { applyOverridesExec cRestW.base mdW with
              symbolicArgs := (applyOverridesExec cRestW.base mdW).symbolicArgs ++ ["<...>"] } :=
  (c5_rest_leaf envW cRestW "a" ["b", "c"] menuW mdW restW (by rfl) rfl).1

/-- Claim C6: when a lookup branch is selected and the external lookup
returns a descriptive not-found string, `execute` returns exactly that
string as the final result, attempting no lower-priority branch. -/
theorem c6_lookup_failure_aborts (env : Env) (c : Command) (p : String)
    (rest : List String) (menu : CommandMenu) (md : ExecMeta) (s : String) :
    (selectBranch c p = .channelMention →
        getChannelByID env ((channelExec p).get!) = .inr s →
        Command.execute env c (p :: rest) menu md = ⟨some s, []⟩)
    ∧ (selectBranch c p = .messageLink →
        getMessageByID env (.inr ((messageLinkExec p).getD ("", "")).1)
            ((messageLinkExec p).getD ("", "")).2 = .inr s →
        Command.execute env c (p :: rest) menu md = ⟨some s, []⟩)
    ∧ (selectBranch c p = .userMention →
        getUserByID env ((userExec p).get!) = .inr s →
        Command.execute env c (p :: rest) menu md = ⟨some s, []⟩)
    ∧ (selectBranch c p = .bareID → c.idType = some .channel →
        getChannelByID env ((idExec p).get!) = .inr s →
        Command.execute env c (p :: rest) menu md = ⟨some s, []⟩)
    ∧ (selectBranch c p = .bareID → c.idType = some .message →
        getMessageByID env (.inl menu.channel) ((idExec p).get!) = .inr s →
        Command.execute env c (p :: rest) menu md = ⟨some s, []⟩)
    ∧ (selectBranch c p = .bareID → c.idType = some .user →
        getUserByID env ((idExec p).get!) = .inr s →
        Command.execute env c (p :: rest) menu md = ⟨some s, []⟩)
    ∧ (selectBranch c p = .bareID → c.idType = some .server →
        getGuildByID env ((idExec p).get!) = .inr s →
        Command.execute env c (p :: rest) menu md = ⟨some s, []⟩) := by
  refine ⟨?_, ?_, ?_, ?_, ?_, ?_, ?_⟩ <;> intro hsel
  · intro hlook
    rw [execute_cons_eq, hsel]
    simp [stepAction, hlook]
  · intro hlook
    rw [execute_cons_eq, hsel]
    simp [stepAction, hlook]
  · intro hlook
    rw [execute_cons_eq, hsel]
    simp [stepAction, hlook]
  · intro hid hlook
    rw [execute_cons_eq, hsel]
    simp [stepAction, hid, hlook]
  · intro hid hlook
    rw [execute_cons_eq, hsel]
    simp [stepAction, hid, hlook]
  · intro hid hlook
    rw [execute_cons_eq, hsel]
    simp [stepAction, hid, hlook]
  · intro hid hlook
    rw [execute_cons_eq, hsel]
    simp [stepAction, hid, hlook]

/-- Witness for C6: the channel fetch fails under `envW` and its not-found
message becomes the whole result. -/
theorem c6_witness :
    Command.execute envW cChanW [chanTok] menuW mdW
      = ⟨some ("No channel found by the ID of `" ++ idTok ++ "`!"), []⟩ :=
  (c6_lookup_failure_aborts envW cChanW chanTok [] menuW mdW
    ("No channel found by the ID of `" ++ idTok ++ "`!")).1 (by rfl) (by rfl)

/-- Claim C7: a failure thrown inside a terminal handler is caught at the
point of invocation and converted into the formatted error string embedding
the failure detail (for both `Command` and `RestCommand` leaves), and no
failure escapes `execute`: every outcome is `null` or a string. -/
theorem c7_handler_failure_caught :
    (∀ (env : Env) (c : Command) (menu : CommandMenu) (md : ExecMeta)
        (f : CommandMenu → HandlerOutcome) (e : JsError),
        c.run = .handler f →
        canExecute env menu (applyOverridesExec c.base md) = none →
        f menu = .thrown e →
        Command.execute env c [] menu md = ⟨some (handlerErrorText e), []⟩)
    ∧ (∀ (env : Env) (r : RestCommand) (combined : String) (menu : CommandMenu)
        (md : ExecMeta) (f : CommandMenu → String → HandlerOutcome) (e : JsError),
        r.run = .handler f →
        canExecute env menu (applyOverridesExec r.base md) = none →
        f menu combined = .thrown e →
        RestCommand.execute env r combined menu md = ⟨some (handlerErrorText e), []⟩)
    ∧ (∀ (env : Env) (c : Command) (args : List String) (menu : CommandMenu) (md : ExecMeta),
        (Command.execute env c args menu md).result = none
        ∨ ∃ s, (Command.execute env c args menu md).result = some s) := by
  refine ⟨?_, ?_, ?_⟩
  · intro env c menu md f e hrun hgate hthrow
    simp [Command.execute, execTerminal, hrun, hgate, hthrow]
  · intro env r combined menu md f e hrun hgate hthrow
    simp [RestCommand.execute, hrun, hgate, hthrow]
  · intro env c args menu md
    cases hO : (Command.execute env c args menu md).result with
    | none => exact Or.inl rfl
    | some s => exact Or.inr ⟨s, rfl⟩

/-- Witness for C7: a handler that throws `boom`; the whole dispatch
returns the formatted error string. -/
theorem c7_witness :
    Command.execute envW cThrowW [] menuW mdW
      = ⟨some (handlerErrorText errW), []⟩ :=
  c7_handler_failure_caught.1 envW cThrowW menuW mdW (fun _ => .thrown errW) errW
    rfl (by rfl) rfl

/-- Claim C8: a token reaching the number test matches the `number` branch
iff it parses as a number and is neither the literal `Infinity` nor
`-Infinity`; `"42"` matches and the handler receives the numeric value 42,
while `"Infinity"` parses as a number yet does not match. -/
theorem c8_number_boundary :
    (∀ (env : Env) (c nc : Command) (p : String) (rest : List String)
        (menu : CommandMenu) (md : ExecMeta),
        selectBranch c p = .numberTok → c.number = some nc →
        Command.execute env c (p :: rest) menu md
          = Command.execute env nc rest
              { menu with args := menu.args ++ [.num (jsNumber p)] }
              { applyOverridesExec c.base md with
                  symbolicArgs := (applyOverridesExec c.base md).symbolicArgs ++ ["<number>"] })
    ∧ (∀ (c : Command) (p : String), selectBranch c p = .numberTok → numberMatches p = true)
    ∧ numberMatches "42" = true ∧ jsNumber "42" = .val 42
    ∧ (jsNumber "Infinity").isNaN = false ∧ numberMatches "Infinity" = false
    ∧ numberMatches "-Infinity" = false := by
  refine ⟨?_, ?_, by decide, ?_, by decide, by decide, by decide⟩
  · intro env c nc p rest menu md hsel hnum
    rw [execute_cons_eq, hsel]
    simp [stepAction, hnum]
  · intro c p hsel
    by_cases h : (c.number.isSome && numberMatches p) = true
    · exact ((Bool.and_eq_true _ _).mp h).2
    · simp only [selectBranch, h, if_false] at hsel
      split at hsel <;> simp_all
      split at hsel <;> simp_all
      split at hsel <;> simp_all
      split at hsel <;> simp_all
      split at hsel <;> simp_all
      split at hsel <;> simp_all
      split at hsel <;> simp_all
  · show JsNum.val (decValue ['4', '2'] [] 0) = .val 42
    have h1 : natOfDigits ['4', '2'] = 42 := by decide
    simp [decValue, h1, natOfDigits]

/-- Witness for C8: token `"42"` selects the number branch and the handler
slot receives the numeric value 42. -/
theorem c8_witness :
    Command.execute envW cNumW ["42"] menuW mdW
      = Command.execute envW leafTemplate []
          { menuW with args := menuW.args ++ [Arg.num (jsNumber "42")] }
          { applyOverridesExec cNumW.base mdW with
              symbolicArgs := (applyOverridesExec cNumW.base mdW).symbolicArgs ++ ["<number>"] } :=
  c8_number_boundary.1 envW cNumW leafTemplate "42" [] menuW mdW (by rfl) rfl

/-! ## Constructor-map lemmas (used by the alias-identity claim) -/

theorem mapGet_mapSet_self {α : Type} (m : List (String × α)) (k : String) (v : α) :
    mapGet (mapSet m k v) k = some v := by
  induction m with
  | nil => simp [mapSet, mapGet]
  | cons hd t ih =>
    obtain ⟨k', v'⟩ := hd
    by_cases hk : k' = k <;> simp [mapSet, mapGet, hk, ih]

theorem mapGet_mapSet_ne {α : Type} (m : List (String × α)) (k k' : String) (v : α)
    (h : k ≠ k') : mapGet (mapSet m k v) k' = mapGet m k' := by
  induction m with
  | nil => simp [mapSet, mapGet, h]
  | cons hd t ih =>
    obtain ⟨k0, v0⟩ := hd
    by_cases hk : k0 = k
    · subst hk
      simp [mapSet, mapGet, h]
    · simp [mapSet, mapGet, hk, ih]

theorem mapGet_map_value {α β : Type} (m : List (String × α)) (f : α → β) (k : String) :
    mapGet (m.map (fun kv => (kv.1, f kv.2))) k = (mapGet m k).map f := by
  induction m with
  | nil => simp [mapGet]
  | cons hd t ih =>
    obtain ⟨k0, v0⟩ := hd
    by_cases hk : k0 = k <;> simp [mapGet, hk, ih]

theorem loop1From_not_mem (decl : List (String × Command)) (k : String)
    (hk : k ∉ decl.map Prod.fst) :
    ∀ (i : Nat) (m : List (String × Nat)), mapGet (loop1From i decl m) k = mapGet m k := by
  induction decl with
  | nil => intro i m; simp [loop1From]
  | cons hd t ih =>
    intro i m
    obtain ⟨n, c⟩ := hd
    simp only [List.map_cons, List.mem_cons, not_or] at hk
    simp only [loop1From]
    rw [ih hk.2, mapGet_mapSet_ne _ _ _ _ (Ne.symm hk.1)]

theorem loop1From_get (decl : List (String × Command)) (j : Nat) (n : String) (c : Command)
    (hN : (decl.map Prod.fst).Nodup) (hj : decl.get? j = some (n, c)) :
    ∀ (i : Nat) (m : List (String × Nat)), mapGet (loop1From i decl m) n = some (i + j) := by
  induction decl generalizing j with
  | nil => simp at hj
  | cons hd t ih =>
    intro i m
    obtain ⟨n0, c0⟩ := hd
    simp only [List.map_cons, List.nodup_cons] at hN
    match j with
    | 0 =>
      simp only [List.get?] at hj
      cases hj
      simp only [loop1From]
      rw [loop1From_not_mem t n hN.1, mapGet_mapSet_self, Nat.add_zero]
    | j' + 1 =>
      simp only [List.get?] at hj
      simp only [loop1From]
      rw [ih j' hN.2 hj (i + 1) (mapSet m n0 i)]
      congr 1
      omega

theorem addAliases_preserves (base : List String) (i : Nat) (n : String)
    (al : List String) :
    ∀ (m : List (String × Nat)) (w : List String) (k : String) (v : Nat),
    mapGet m k = some v → mapGet (addAliases base i n al (m, w)).1 k = some v := by
  induction al with
  | nil => intro m w k v h; simpa [addAliases] using h
  | cons a t ih =>
    intro m w k v h
    by_cases hb : base.contains a = true
    · rw [addAliases, if_pos hb]
      exact ih m _ k v h
    · by_cases hh : mapHas m a = true
      · rw [addAliases, if_neg hb, if_pos hh]
        exact ih m _ k v h
      · have hak : a ≠ k := by
          intro he
          rw [mapHas, he, h] at hh
          simp at hh
        rw [addAliases, if_neg hb, if_neg hh]
        exact ih (mapSet m a i) w k v
          (by rw [mapGet_mapSet_ne _ _ _ _ hak]; exact h)

theorem loop2From_preserves (base : List String) (decl : List (String × Command)) :
    ∀ (i : Nat) (m : List (String × Nat)) (w : List String) (k : String) (v : Nat),
    mapGet m k = some v → mapGet (loop2From base i decl (m, w)).1 k = some v := by
  induction decl with
  | nil => intro i m w k v h; simpa [loop2From] using h
  | cons hd t ih =>
    intro i m w k v h
    obtain ⟨n0, s0⟩ := hd
    simp only [loop2From]
    rcases hA : addAliases base i n0 s0.aliases (m, w) with ⟨m', w'⟩
    have h' : mapGet m' k = some v := by
      have := addAliases_preserves base i n0 s0.aliases m w k v h
      rwa [hA] at this
    exact ih (i + 1) m' w' k v h'

theorem addAliases_not_mem (base : List String) (i : Nat) (n : String)
    (al : List String) (k : String) (hk : k ∉ al) :
    ∀ (m : List (String × Nat)) (w : List String),
    mapGet (addAliases base i n al (m, w)).1 k = mapGet m k := by
  induction al with
  | nil => intro m w; simp [addAliases]
  | cons a t ih =>
    intro m w
    simp only [List.mem_cons, not_or] at hk
    by_cases hb : base.contains a = true
    · rw [addAliases, if_pos hb]
      exact ih hk.2 m _
    · by_cases hh : mapHas m a = true
      · rw [addAliases, if_neg hb, if_pos hh]
        exact ih hk.2 m _
      · rw [addAliases, if_neg hb, if_neg hh]
        rw [ih hk.2 (mapSet m a i) w, mapGet_mapSet_ne _ _ _ _ (Ne.symm hk.1)]

theorem addAliases_insert (base : List String) (i : Nat) (n : String)
    (al : List String) (k : String) (hkb : ¬ base.contains k = true) (hk : k ∈ al) :
    ∀ (m : List (String × Nat)) (w : List String), mapGet m k = none →
    mapGet (addAliases base i n al (m, w)).1 k = some i := by
  induction al with
  | nil => simp at hk
  | cons a t ih =>
    intro m w hm
    by_cases hak : a = k
    · subst hak
      have hh : ¬ mapHas m a = true := by simp [mapHas, hm]
      rw [addAliases, if_neg hkb, if_neg hh]
      exact addAliases_preserves base i n t (mapSet m a i) w a i (mapGet_mapSet_self m a i)
    · have hk' : k ∈ t := by
        rcases List.mem_cons.mp hk with he | ht
        · exact absurd he.symm hak
        · exact ht
      by_cases hb : base.contains a = true
      · rw [addAliases, if_pos hb]
        exact ih hk' m _ hm
      · by_cases hh : mapHas m a = true
        · rw [addAliases, if_neg hb, if_pos hh]
          exact ih hk' m _ hm
        · rw [addAliases, if_neg hb, if_neg hh]
          exact ih hk' (mapSet m a i) w
            (by rw [mapGet_mapSet_ne _ _ _ _ hak]; exact hm)

theorem addAliases_base_mem (base : List String) (i : Nat) (n : String)
    (al : List String) (k : String) (hkb : base.contains k = true) :
    ∀ (m : List (String × Nat)) (w : List String),
    mapGet (addAliases base i n al (m, w)).1 k = mapGet m k := by
  induction al with
  | nil => intro m w; simp [addAliases]
  | cons a t ih =>
    intro m w
    by_cases hb : base.contains a = true
    · rw [addAliases, if_pos hb]
      exact ih m _
    · by_cases hh : mapHas m a = true
      · rw [addAliases, if_neg hb, if_pos hh]
        exact ih m _
      · have hak : a ≠ k := fun he => hb (he ▸ hkb)
        rw [addAliases, if_neg hb, if_neg hh, ih (mapSet m a i) w,
          mapGet_mapSet_ne _ _ _ _ hak]

theorem loop2From_base_mem (base : List String) (decl : List (String × Command))
    (k : String) (hkb : base.contains k = true) :
    ∀ (i : Nat) (m : List (String × Nat)) (w : List String),
    mapGet (loop2From base i decl (m, w)).1 k = mapGet m k := by
  induction decl with
  | nil => intro i m w; simp [loop2From]
  | cons hd t ih =>
    intro i m w
    obtain ⟨n0, s0⟩ := hd
    simp only [loop2From]
    rcases hA : addAliases base i n0 s0.aliases (m, w) with ⟨m', w'⟩
    have h1 : mapGet m' k = mapGet m k := by
      have := addAliases_base_mem base i n0 s0.aliases k hkb m w
      rwa [hA] at this
    rw [ih (i + 1) m' w', h1]

theorem loop2From_findAlias (base : List String) (k : String)
    (hkb : ¬ base.contains k = true) (decl : List (String × Command)) :
    ∀ (i : Nat) (m : List (String × Nat)) (w : List String), mapGet m k = none →
    mapGet (loop2From base i decl (m, w)).1 k = findAlias i k decl := by
  induction decl with
  | nil => intro i m w hm; simpa [loop2From, findAlias] using hm
  | cons hd t ih =>
    intro i m w hm
    obtain ⟨n0, s0⟩ := hd
    simp only [loop2From, findAlias]
    by_cases hal : s0.aliases.contains k = true
    · have hmem : k ∈ s0.aliases := by
        simpa using hal
      rw [if_pos hal]
      rcases hA : addAliases base i n0 s0.aliases (m, w) with ⟨m', w'⟩
      have h1 : mapGet m' k = some i := by
        have := addAliases_insert base i n0 s0.aliases k hkb hmem m w hm
        rwa [hA] at this
      exact loop2From_preserves base t (i + 1) m' w' k i h1
    · have hmem : k ∉ s0.aliases := by
        simpa using hal
      rw [if_neg hal]
      rcases hA : addAliases base i n0 s0.aliases (m, w) with ⟨m', w'⟩
      have h1 : mapGet m' k = none := by
        have := addAliases_not_mem base i n0 s0.aliases k hmem m w
        rw [hA] at this
        rw [this, hm]
      exact ih (i + 1) m' w' h1

theorem addAliases_warn_mono (base : List String) (i : Nat) (n : String)
    (al : List String) (x : String) :
    ∀ (m : List (String × Nat)) (w : List String), x ∈ w →
    x ∈ (addAliases base i n al (m, w)).2 := by
  induction al with
  | nil => intro m w hx; simpa [addAliases] using hx
  | cons a t ih =>
    intro m w hx
    by_cases hb : base.contains a = true
    · rw [addAliases, if_pos hb]
      exact ih m _ (List.mem_append_left _ hx)
    · by_cases hh : mapHas m a = true
      · rw [addAliases, if_neg hb, if_pos hh]
        exact ih m _ (List.mem_append_left _ hx)
      · rw [addAliases, if_neg hb, if_neg hh]
        exact ih (mapSet m a i) w hx

theorem loop2From_warn_mono (base : List String) (decl : List (String × Command))
    (x : String) :
    ∀ (i : Nat) (m : List (String × Nat)) (w : List String), x ∈ w →
    x ∈ (loop2From base i decl (m, w)).2 := by
  induction decl with
  | nil => intro i m w hx; simpa [loop2From] using hx
  | cons hd t ih =>
    intro i m w hx
    obtain ⟨n0, s0⟩ := hd
    simp only [loop2From]
    rcases hA : addAliases base i n0 s0.aliases (m, w) with ⟨m', w'⟩
    have h1 : x ∈ w' := by
      have := addAliases_warn_mono base i n0 s0.aliases x m w hx
      rwa [hA] at this
    exact ih (i + 1) m' w' h1

theorem addAliases_base_warn (base : List String) (i : Nat) (n : String)
    (al : List String) (k : String) (hk : k ∈ al) (hkb : base.contains k = true) :
    ∀ (m : List (String × Nat)) (w : List String),
    aliasBaseWarning k n ∈ (addAliases base i n al (m, w)).2 := by
  induction al with
  | nil => simp at hk
  | cons a t ih =>
    intro m w
    by_cases hak : a = k
    · subst hak
      rw [addAliases, if_pos hkb]
      exact addAliases_warn_mono base i n t _ m _
        (List.mem_append_right _ (List.mem_singleton.mpr rfl))
    · have hk' : k ∈ t := by
        rcases List.mem_cons.mp hk with he | ht
        · exact absurd he.symm hak
        · exact ht
      by_cases hb : base.contains a = true
      · rw [addAliases, if_pos hb]
        exact ih hk' m _
      · by_cases hh : mapHas m a = true
        · rw [addAliases, if_neg hb, if_pos hh]
          exact ih hk' m _
        · rw [addAliases, if_neg hb, if_neg hh]
          exact ih hk' (mapSet m a i) w

theorem addAliases_dup_warn (base : List String) (i : Nat) (n : String)
    (al : List String) (k : String) (hk : k ∈ al) (hkb : ¬ base.contains k = true) :
    ∀ (m : List (String × Nat)) (w : List String), mapHas m k = true →
    aliasDupWarning k n ∈ (addAliases base i n al (m, w)).2 := by
  induction al with
  | nil => simp at hk
  | cons a t ih =>
    intro m w hm
    by_cases hak : a = k
    · subst hak
      rw [addAliases, if_neg hkb, if_pos hm]
      exact addAliases_warn_mono base i n t _ m _
        (List.mem_append_right _ (List.mem_singleton.mpr rfl))
    · have hk' : k ∈ t := by
        rcases List.mem_cons.mp hk with he | ht
        · exact absurd he.symm hak
        · exact ht
      by_cases hb : base.contains a = true
      · rw [addAliases, if_pos hb]
        exact ih hk' m _ hm
      · by_cases hh : mapHas m a = true
        · rw [addAliases, if_neg hb, if_pos hh]
          exact ih hk' m _ hm
        · rw [addAliases, if_neg hb, if_neg hh]
          refine ih hk' (mapSet m a i) w ?_
          rw [mapHas, mapGet_mapSet_ne _ _ _ _ hak]
          exact hm

theorem addAliases_has_of_mem (base : List String) (i : Nat) (n : String)
    (al : List String) (k : String) (hk : k ∈ al) (hkb : ¬ base.contains k = true) :
    ∀ (m : List (String × Nat)) (w : List String),
    mapHas (addAliases base i n al (m, w)).1 k = true := by
  intro m w
  cases hm : mapGet m k with
  | some v =>
    rw [mapHas, addAliases_preserves base i n al m w k v hm]
    rfl
  | none =>
    rw [mapHas, addAliases_insert base i n al k hkb hk m w hm]
    rfl

theorem addAliases_has_preserved (base : List String) (i : Nat) (n : String)
    (al : List String) (k : String) :
    ∀ (m : List (String × Nat)) (w : List String), mapHas m k = true →
    mapHas (addAliases base i n al (m, w)).1 k = true := by
  intro m w hm
  rw [mapHas] at hm
  cases hg : mapGet m k with
  | some v =>
    rw [mapHas, addAliases_preserves base i n al m w k v hg]
    rfl
  | none => rw [hg] at hm; simp at hm

theorem loop2From_base_warn (base : List String) (k : String) (hkb : base.contains k = true)
    (decl : List (String × Command)) :
    ∀ (j : Nat) (n : String) (s : Command) (i : Nat) (m : List (String × Nat))
      (w : List String),
    decl.get? j = some (n, s) → k ∈ s.aliases →
    aliasBaseWarning k n ∈ (loop2From base i decl (m, w)).2 := by
  induction decl with
  | nil => intro j n s i m w hj _; simp at hj
  | cons hd t ih =>
    intro j n s i m w hj hk
    obtain ⟨n0, s0⟩ := hd
    simp only [loop2From]
    rcases hA : addAliases base i n0 s0.aliases (m, w) with ⟨m', w'⟩
    match j with
    | 0 =>
      simp only [List.get?] at hj
      cases hj
      have h1 : aliasBaseWarning k n ∈ w' := by
        have := addAliases_base_warn base i n s.aliases k hk hkb m w
        rwa [hA] at this
      exact loop2From_warn_mono base t _ (i + 1) m' w' h1
    | j' + 1 =>
      simp only [List.get?] at hj
      exact ih j' n s (i + 1) m' w' hj hk

theorem loop2From_dup_warn (base : List String) (k : String)
    (hkb : ¬ base.contains k = true) (decl : List (String × Command)) :
    ∀ (j : Nat) (n : String) (s : Command) (i : Nat) (m : List (String × Nat))
      (w : List String),
    decl.get? j = some (n, s) → k ∈ s.aliases →
    (mapHas m k = true
      ∨ ∃ j' n' s', j' < j ∧ decl.get? j' = some (n', s') ∧ k ∈ Command.aliases s') →
    aliasDupWarning k n ∈ (loop2From base i decl (m, w)).2 := by
  induction decl with
  | nil => intro j n s i m w hj _ _; simp at hj
  | cons hd t ih =>
    intro j n s i m w hj hk hpre
    obtain ⟨n0, s0⟩ := hd
    simp only [loop2From]
    rcases hA : addAliases base i n0 s0.aliases (m, w) with ⟨m', w'⟩
    match j with
    | 0 =>
      simp only [List.get?] at hj
      cases hj
      have hm : mapHas m k = true := by
        rcases hpre with h | ⟨j', n', s', hlt, _, _⟩
        · exact h
        · omega
      have h1 : aliasDupWarning k n ∈ w' := by
        have := addAliases_dup_warn base i n s.aliases k hk hkb m w hm
        rwa [hA] at this
      exact loop2From_warn_mono base t _ (i + 1) m' w' h1
    | j' + 1 =>
      simp only [List.get?] at hj
      refine ih j' n s (i + 1) m' w' hj hk ?_
      rcases hpre with h | ⟨j0, n', s', hlt, hg, hks⟩
      · left
        have := addAliases_has_preserved base i n0 s0.aliases k m w h
        rwa [hA] at this
      · match j0, hlt, hg with
        | 0, _, hg =>
          left
          simp only [List.get?] at hg
          cases hg
          have := addAliases_has_of_mem base i n0 s0.aliases k hks hkb m w
          rwa [hA] at this
        | j0' + 1, hlt, hg =>
          right
          simp only [List.get?] at hg
          exact ⟨j0', n', s', by omega, hg, hks⟩

/-- Claim C9: in the constructed sub-command map, an alias that does not
collide with an earlier binding is bound to the same declaration index as
the sub-command's canonical name — the identical node, so any mutation is
visible through both keys, and the two value-level lookups agree — while a
colliding alias produces the non-fatal constructor warning and leaves the
earlier binding (the base name's, or the first occurrence's) in force. -/
theorem c9_alias_shared_identity
    (decl : List (String × Command)) (j : Nat) (n : String) (s : Command) (k : String)
    (hN : (decl.map Prod.fst).Nodup)
    (hj : decl.get? j = some (n, s)) (hk : k ∈ s.aliases) :
    (k ∉ decl.map Prod.fst → findAlias 0 k decl = some j →
        mapGet (buildSubMap decl).1 k = some j ∧ mapGet (buildSubMap decl).1 n = some j)
    ∧ (k ∉ decl.map Prod.fst → findAlias 0 k decl = some j →
        ∀ c, mkCommand { subcommands := decl } = some c →
          subGet c k = subGet c n ∧ (subGet c k).isSome = true)
    ∧ (k ∈ decl.map Prod.fst →
        aliasBaseWarning k n ∈ (buildSubMap decl).2
        ∧ mapGet (buildSubMap decl).1 k = mapGet (loop1From 0 decl []) k)
    ∧ (∀ j' n' s', k ∉ decl.map Prod.fst → j' < j → decl.get? j' = some (n', s') →
        k ∈ Command.aliases s' →
        aliasDupWarning k n ∈ (buildSubMap decl).2
        ∧ mapGet (buildSubMap decl).1 k = findAlias 0 k decl) := by
  have hbase_n : mapGet (loop1From 0 decl []) n = some j := by
    simpa using loop1From_get decl j n s hN hj 0 []
  have hfinal_n : mapGet (buildSubMap decl).1 n = some j := by
    simp only [buildSubMap]
    exact loop2From_preserves _ decl 0 _ [] n j hbase_n
  have hAk : ∀ _hknot : k ∉ decl.map Prod.fst,
      mapGet (buildSubMap decl).1 k = findAlias 0 k decl := by
    intro hknot
    have hkb : ¬ (decl.map Prod.fst).contains k = true := by simpa using hknot
    have hm0 : mapGet (loop1From 0 decl []) k = none := by
      rw [loop1From_not_mem decl k hknot 0 []]
      rfl
    simp only [buildSubMap]
    exact loop2From_findAlias (decl.map Prod.fst) k hkb decl 0 _ [] hm0
  refine ⟨?_, ?_, ?_, ?_⟩
  · intro hknot hfa
    exact ⟨by rw [hAk hknot, hfa], hfinal_n⟩
  · intro hknot hfa c hc
    have hgk : mapGet (buildSubMap decl).1 k = some j := by rw [hAk hknot, hfa]
    rcases hsn : setSubNames decl with _ | named
    · rw [mkCommand, derivedSubcommands, hsn] at hc
      simp at hc
    · rw [mkCommand, derivedSubcommands, hsn] at hc
      simp only [Option.map_some'] at hc
      cases hc
      simp only [subGet, Command.subcommands]
      rw [mapGet_map_value (buildSubMap decl).1 (fun v => ((named.get? v).getD default).2) k,
        mapGet_map_value (buildSubMap decl).1 (fun v => ((named.get? v).getD default).2) n,
        hgk, hfinal_n]
      simp
  · intro hkmem
    have hkb : (decl.map Prod.fst).contains k = true := by simpa using hkmem
    constructor
    · simp only [buildSubMap]
      exact loop2From_base_warn (decl.map Prod.fst) k hkb decl j n s 0 _ [] hj hk
    · simp only [buildSubMap]
      exact loop2From_base_mem (decl.map Prod.fst) decl k hkb 0 _ []
  · intro j' n' s' hknot hlt hj' hk'
    have hkb : ¬ (decl.map Prod.fst).contains k = true := by simpa using hknot
    constructor
    · simp only [buildSubMap]
      exact loop2From_dup_warn (decl.map Prod.fst) k hkb decl j n s 0 _ [] hj hk
        (Or.inr ⟨j', n', s', hlt, hj', hk'⟩)
    · exact hAk hknot

/-- Witness for C9. -/
theorem c9_witness :
    (mapGet (buildSubMap declW).1 "a" = some 0
      ∧ mapGet (buildSubMap declW).1 "alpha" = some 0)
    ∧ (subGet cW9 "a" = subGet cW9 "alpha" ∧ (subGet cW9 "a").isSome = true)
    ∧ (aliasBaseWarning "beta" "alpha" ∈ (buildSubMap declW).2
      ∧ mapGet (buildSubMap declW).1 "beta" = mapGet (loop1From 0 declW []) "beta")
    ∧ (aliasDupWarning "a" "beta" ∈ (buildSubMap declW).2
      ∧ mapGet (buildSubMap declW).1 "a" = findAlias 0 "a" declW) := by
  have h0 := c9_alias_shared_identity declW 0 "alpha" (mkAliasLeaf ["a", "beta"]) "a"
    (by decide) (by rfl) (by decide)
  have hb := c9_alias_shared_identity declW 0 "alpha" (mkAliasLeaf ["a", "beta"]) "beta"
    (by decide) (by rfl) (by decide)
  have h1 := c9_alias_shared_identity declW 1 "beta" (mkAliasLeaf ["a"]) "a"
    (by decide) (by rfl) (by decide)
  refine ⟨h0.1 (by decide) (by rfl), h0.2.1 (by decide) (by rfl) cW9 (by rfl),
    ⟨(hb.2.2.1 (by decide)).1, (hb.2.2.1 (by decide)).2⟩, ?_⟩
  exact h1.2.2.2 0 "alpha" (mkAliasLeaf ["a", "beta"]) (by decide) (by decide) (by rfl)
    (by decide)

end TurnipBeams
